import Mathlib

/-!
Verification development for the streaming-translator and session-lifecycle core
of the iops-agentflow chat backend.

The embedding models, from `src/app/agents/api.py`:
  * `multi_agent_stream_generator` (the "uyun"/Engine-A translator),
  * `dify_stream_generator` (the Engine-B translator),
  * `agentflow_stream_generator` (the Engine-C translator),
  * the session-id / task-scheduling sections of `handle_uyun`, `handle_dify`
    and `handle_agent_flow`,
  * the `source` dispatch of `chat_streaming`,
and, from `src/app/agents/registry.py` and `src/app/api/v1/agent.py`,
`AgentRegistry.register` / `AgentRegistry.get` and the `stream_agent`
endpoint's error mapping.

Python dictionaries are modelled as insertion-ordered association lists with
Python's assignment semantics (update in place keeps the key position, a new
key is appended).  A parsed JSON value is `JVal`.  An emitted SSE chunk
`f"data: {json.dumps(obj)}\x5cn\x5cn"` is identified with the dictionary `obj`
serialized into it, so an emitted event is a `JObj`.  Upstream byte streams
are modelled as the list of decoded lines that `iter_lines` / `response.content`
delivers.  Python exceptions that the generators do not catch are modelled by
an `Option PyErr` abort marker carrying the events emitted before the raise.
-/

namespace IopsAgentflow

/-- Characters Python's `str.strip()` removes (the ASCII whitespace set that
occurs in this protocol's traffic). -/
def pyWs (c : Char) : Bool :=
  c == ' ' || c == '\t' || c == '\n' || c == '\r' || c == '\x0b' || c == '\x0c'

/-- Python `str.strip()`. -/
def pyStrip (s : String) : String :=
  ⟨((s.toList.dropWhile pyWs).reverse.dropWhile pyWs).reverse⟩

/-- Test whether `hay` begins with `needle`. -/
def listStarts : List Char → List Char → Bool
  | _, [] => true
  | [], _ :: _ => false
  | c :: cs, d :: ds => c == d && listStarts cs ds

/-- Substring containment on character lists (Python `needle in hay`). -/
def listHasSub : List Char → List Char → Bool
  | [], needle => needle.isEmpty
  | c :: cs, needle => listStarts (c :: cs) needle || listHasSub cs needle

/-- Python `sub in s`. -/
def strHasSub (s sub : String) : Bool :=
  listHasSub s.toList sub.toList

/-- Python `s.startswith(pre)`. -/
def strStarts (s pre : String) : Bool :=
  listStarts s.toList pre.toList

/-- Python `s.removeprefix(pre)`. -/
def pyRemovePre (s pre : String) : String :=
  if strStarts s pre then ⟨s.toList.drop pre.toList.length⟩ else s

/-- Join a list of strings with a separator (Python `sep.join(xs)`). -/
def joinSep (sep : String) : List String → String
  | [] => ""
  | [x] => x
  | x :: xs => x ++ sep ++ joinSep sep xs

/-- Fuel-indexed worker for `pySplit` (structural recursion on the fuel so
that it reduces in the kernel; `pySplit` supplies enough fuel). -/
def pySplitAux (sep : List Char) : Nat → List Char → List Char → List (List Char)
  | _, [], acc => [acc.reverse]
  | 0, cs, acc => [acc.reverse ++ cs]
  | fuel + 1, c :: cs, acc =>
    if listStarts (c :: cs) sep && !sep.isEmpty then
      acc.reverse :: pySplitAux sep fuel (List.drop (sep.length - 1) cs) []
    else pySplitAux sep fuel cs (c :: acc)

/-- Python `s.split(sep)` for a non-empty separator. -/
def pySplit (s sep : String) : List String :=
  (pySplitAux sep.toList (s.toList.length + 1) s.toList []).map (fun l => ⟨l⟩)

/-- Fuel-indexed worker for `pyReplace`. -/
def pyReplaceAux (pat rep : List Char) : Nat → List Char → List Char
  | _, [] => []
  | 0, cs => cs
  | fuel + 1, c :: cs =>
    if listStarts (c :: cs) pat && !pat.isEmpty then
      rep ++ pyReplaceAux pat rep fuel (List.drop (pat.length - 1) cs)
    else c :: pyReplaceAux pat rep fuel cs

/-- Python `s.replace(pat, rep)` for a non-empty pattern: replaces every
non-overlapping occurrence, left to right. -/
def pyReplace (s pat rep : String) : String :=
  ⟨pyReplaceAux pat.toList rep.toList (s.toList.length + 1) s.toList⟩

/-- Python `s.endswith(suf)`. -/
def strEnds (s suf : String) : Bool :=
  listStarts s.toList.reverse suf.toList.reverse

/-- JSON values as returned by `json.loads`. -/
inductive JVal where
  | jstr (s : String)
  | jint (n : Int)
  | jbool (b : Bool)
  | jnull
  | jarr (xs : List JVal)
  | jobj (kvs : List (String × JVal))

/-- A parsed JSON object / Python dict: insertion-ordered key-value pairs. -/
abbrev JObj := List (String × JVal)

/-- Python `d.get(k)` (`none` for a missing key; keys are unique in a Python
dict, so the first binding is the binding). -/
def dictGet {α : Type} : List (String × α) → String → Option α
  | [], _ => none
  | p :: t, k => if p.1 == k then some p.2 else dictGet t k

/-- Python `k in d`. -/
def dictHas {α : Type} : List (String × α) → String → Bool
  | [], _ => false
  | p :: t, k => p.1 == k || dictHas t k

/-- Python `d[k] = v`: updating an existing key keeps its position, a new key
is appended at the end. -/
def dictSet {α : Type} : List (String × α) → String → α → List (String × α)
  | [], k, v => [(k, v)]
  | p :: t, k, v => if p.1 == k then (k, v) :: t else p :: dictSet t k v

/-- Python `del d[k]`. -/
def dictDel {α : Type} (o : List (String × α)) (k : String) : List (String × α) :=
  o.filter (fun p => p.1 != k)

/-- Python `o.get(k)` on a JSON object. -/
def jget (o : JObj) (k : String) : Option JVal := dictGet o k

/-- Python `k in o` on a JSON object. -/
def jhas (o : JObj) (k : String) : Bool := dictHas o k

/-- Python `o[k] = v` on a JSON object. -/
def jset (o : JObj) (k : String) (v : JVal) : JObj := dictSet o k v

/-- Python `del o[k]` on a JSON object. -/
def jdel (o : JObj) (k : String) : JObj := dictDel o k

/-- Python `o.get(k) == v` for a string `v` (a missing key or a
non-string value compares unequal). -/
def jgetIsStr (o : JObj) (k v : String) : Bool :=
  match jget o k with
  | some (.jstr s) => s == v
  | _ => false

/-- Python truthiness of a JSON value. -/
def pyTruthy : JVal → Bool
  | .jstr s => !s.isEmpty
  | .jint n => n != 0
  | .jbool b => b
  | .jnull => false
  | .jarr xs => !xs.isEmpty
  | .jobj kvs => !kvs.isEmpty

/-- JSON whitespace accepted between tokens by `json.loads`. -/
def jsonWsChar (c : Char) : Bool :=
  c == ' ' || c == '\t' || c == '\n' || c == '\r'

/-- Skip JSON whitespace. -/
def jsonSkipWs (cs : List Char) : List Char := cs.dropWhile jsonWsChar

/-- Parse the body of a JSON string after its opening quote, handling the
escapes that occur in this protocol's traffic.  Returns the string and the
rest of the input after the closing quote. -/
def parseStrBody (acc : List Char) : List Char → Option (String × List Char)
  | [] => none
  | '\\' :: rest =>
    match rest with
    | [] => none
    | e :: rest2 =>
      if e == '"' then parseStrBody ('"' :: acc) rest2
      else if e == '\\' then parseStrBody ('\\' :: acc) rest2
      else if e == '/' then parseStrBody ('/' :: acc) rest2
      else if e == 'n' then parseStrBody ('\n' :: acc) rest2
      else if e == 't' then parseStrBody ('\t' :: acc) rest2
      else if e == 'r' then parseStrBody ('\r' :: acc) rest2
      else none
  | '"' :: rest => some (⟨acc.reverse⟩, rest)
  | c :: rest => parseStrBody (c :: acc) rest

/-- Consume a run of decimal digits, accumulating their value. -/
def takeDigits : List Char → Nat → (Nat × List Char)
  | [], acc => (acc, [])
  | c :: rest, acc =>
    if c.isDigit then takeDigits rest (acc * 10 + (c.toNat - 48)) else (acc, c :: rest)

mutual

/-- Recursive-descent `json.loads` core (fuel-indexed; `jsonLoads` supplies
enough fuel for any input).  Duplicate object keys, which Python resolves
last-wins, do not occur in this protocol and are kept as parsed. -/
def parseVal : Nat → List Char → Option (JVal × List Char)
  | 0, _ => none
  | fuel + 1, cs =>
    match jsonSkipWs cs with
    | [] => none
    | '"' :: rest => (parseStrBody [] rest).map (fun p => (.jstr p.1, p.2))
    | '{' :: rest =>
      match jsonSkipWs rest with
      | '}' :: rest2 => some (.jobj [], rest2)
      | cs2 => (parseMembers fuel cs2).map (fun p => (.jobj p.1, p.2))
    | '[' :: rest =>
      match jsonSkipWs rest with
      | ']' :: rest2 => some (.jarr [], rest2)
      | cs2 => (parseItems fuel cs2).map (fun p => (.jarr p.1, p.2))
    | 't' :: 'r' :: 'u' :: 'e' :: rest => some (.jbool true, rest)
    | 'f' :: 'a' :: 'l' :: 's' :: 'e' :: rest => some (.jbool false, rest)
    | 'n' :: 'u' :: 'l' :: 'l' :: rest => some (.jnull, rest)
    | '-' :: c :: rest =>
      if c.isDigit then
        let p := takeDigits (c :: rest) 0
        some (.jint (-(p.1 : Int)), p.2)
      else none
    | c :: rest =>
      if c.isDigit then
        let p := takeDigits (c :: rest) 0
        some (.jint (p.1 : Int), p.2)
      else none

/-- Parse the members of a JSON object after a first non-`}` character. -/
def parseMembers : Nat → List Char → Option (List (String × JVal) × List Char)
  | 0, _ => none
  | fuel + 1, cs =>
    match jsonSkipWs cs with
    | '"' :: rest =>
      match parseStrBody [] rest with
      | none => none
      | some (key, rest2) =>
        match jsonSkipWs rest2 with
        | ':' :: rest3 =>
          match parseVal fuel rest3 with
          | none => none
          | some (v, rest4) =>
            match jsonSkipWs rest4 with
            | ',' :: rest5 =>
              match parseMembers fuel rest5 with
              | none => none
              | some (kvs, rest6) => some ((key, v) :: kvs, rest6)
            | '}' :: rest5 => some ([(key, v)], rest5)
            | _ => none
        | _ => none
    | _ => none

/-- Parse the items of a JSON array after a first non-`]` character. -/
def parseItems : Nat → List Char → Option (List JVal × List Char)
  | 0, _ => none
  | fuel + 1, cs =>
    match parseVal fuel cs with
    | none => none
    | some (v, rest) =>
      match jsonSkipWs rest with
      | ',' :: rest2 =>
        match parseItems fuel rest2 with
        | none => none
        | some (xs, rest3) => some (v :: xs, rest3)
      | ']' :: rest2 => some ([v], rest2)
      | _ => none

end

/-- Python `json.loads`: parse a whole string, `none` on a `JSONDecodeError`. -/
def jsonLoads (s : String) : Option JVal :=
  match parseVal (s.toList.length + 2) s.toList with
  | some (v, rest) => if (jsonSkipWs rest).isEmpty then some v else none
  | none => none

/-- Escape one character for a JSON string literal. -/
def jsonEscChar (c : Char) : String :=
  if c == '"' then "\\\""
  else if c == '\\' then "\\\\"
  else if c == '\n' then "\\n"
  else if c == '\t' then "\\t"
  else if c == '\r' then "\\r"
  else String.singleton c

/-- Escape a string for a JSON string literal. -/
def jsonEsc (s : String) : String := String.join (s.toList.map jsonEscChar)

mutual

/-- Python `json.dumps(v, ensure_ascii=False)` with the default separators
`", "` and `": "`. -/
def jsonDumps : JVal → String
  | .jstr s => "\"" ++ jsonEsc s ++ "\""
  | .jint n => toString n
  | .jbool b => if b then "true" else "false"
  | .jnull => "null"
  | .jarr xs => "[" ++ jsonDumpsItems xs ++ "]"
  | .jobj kvs => "\x7b" ++ jsonDumpsMembers kvs ++ "\x7d"

/-- Serialize array items, comma-separated. -/
def jsonDumpsItems : List JVal → String
  | [] => ""
  | [x] => jsonDumps x
  | x :: y :: xs => jsonDumps x ++ ", " ++ jsonDumpsItems (y :: xs)

/-- Serialize object members, comma-separated. -/
def jsonDumpsMembers : List (String × JVal) → String
  | [] => ""
  | [(k, v)] => "\"" ++ jsonEsc k ++ "\": " ++ jsonDumps v
  | (k, v) :: m :: kvs =>
    "\"" ++ jsonEsc k ++ "\": " ++ jsonDumps v ++ ", " ++ jsonDumpsMembers (m :: kvs)

end

mutual

/-- Python `repr` of a parsed JSON value (for the quote-free strings this
protocol carries). -/
def pyRepr : JVal → String
  | .jstr s => "\x27" ++ s ++ "\x27"
  | .jint n => toString n
  | .jbool b => if b then "True" else "False"
  | .jnull => "None"
  | .jarr xs => "[" ++ pyReprItems xs ++ "]"
  | .jobj kvs => "\x7b" ++ pyReprMembers kvs ++ "\x7d"

/-- Python `repr` of list items, comma-separated. -/
def pyReprItems : List JVal → String
  | [] => ""
  | [x] => pyRepr x
  | x :: y :: xs => pyRepr x ++ ", " ++ pyReprItems (y :: xs)

/-- Python `repr` of dict members, comma-separated. -/
def pyReprMembers : List (String × JVal) → String
  | [] => ""
  | [(k, v)] => "\x27" ++ k ++ "\x27: " ++ pyRepr v
  | (k, v) :: m :: kvs => "\x27" ++ k ++ "\x27: " ++ pyRepr v ++ ", " ++ pyReprMembers (m :: kvs)

end

/-- Python `str` of a parsed JSON value. -/
def pyStr : JVal → String
  | .jstr s => s
  | v => pyRepr v

/-- Python exceptions the generators leave uncaught (they abort the stream). -/
inductive PyErr where
  | typeError
  | indexError
  | attrError
  | jsonDecodeError

/-- An emitted event is terminal when its `type` field is `done` or `error`. -/
def isTerminal (e : JObj) : Bool :=
  jgetIsStr e "type" "done" || jgetIsStr e "type" "error"

/-- The successive prefixes of a string revealed character by character
(`texts += char` in the source's reveal loops). -/
def revealSteps (acc : String) : List Char → List String
  | [] => []
  | c :: cs => (acc.push c) :: revealSteps (acc.push c) cs

/-- All non-empty prefixes of `s`, shortest first. -/
def reveal (s : String) : List String := revealSteps "" s.toList

/-- The source's reveal loop over a mutated dict: for each text, set
`lj[key] = pre ++ text` and yield the dict; returns the yielded snapshots and
the final dict. -/
def ljReveal (key pre : String) (lj : JObj) : List String → List JObj × JObj
  | [] => ([], lj)
  | t :: ts =>
    let lj2 := jset lj key (.jstr (pre ++ t))
    let r := ljReveal key pre lj2 ts
    (lj2 :: r.1, r.2)

/-- The source's single-character loop: for each character, set `lj[key]` to
that one character and yield the dict. -/
def ljCharSeq (key : String) (lj : JObj) : List Char → List JObj × JObj
  | [] => ([], lj)
  | c :: cs =>
    let lj2 := jset lj key (.jstr (String.singleton c))
    let r := ljCharSeq key lj2 cs
    (lj2 :: r.1, r.2)

/-- The source function `handle_multi(answers, thought, conversation_id, line_json, message_id)`:
appends a truthy `content` to `answers`, a present truthy `thought` to
`thought`, and stamps `conversation_id` / `message_id` onto the dict. -/
def handleMultiF (answers thought : List JVal) (cid mid : String) (lj : JObj) :
    List JVal × List JVal × JObj :=
  let answers :=
    if pyTruthy ((jget lj "content").getD .jnull)
    then answers ++ [(jget lj "content").getD .jnull] else answers
  let thought :=
    if jhas lj "thought" && pyTruthy ((jget lj "thought").getD .jnull)
    then thought ++ [(jget lj "thought").getD .jnull] else thought
  let lj := jset (jset lj "conversation_id" (.jstr cid)) "message_id" (.jstr mid)
  (answers, thought, lj)

/-! ### Engine C: `agentflow_stream_generator` -/

/-- Translator state: `current_event_type` and the shared `answers` buffer
(the `thought` buffer is never written by this translator). -/
structure AFState where
  cet : Option String
  answers : List JVal

/-- Control flow after one upstream line: continue the loop, `break` after a
terminal event, or jump to the generator's `except` clause. -/
inductive AFFlow where
  | cont
  | halt
  | exc

/-- Result of processing one upstream line. -/
structure AFStep where
  events : List JObj
  st : AFState
  flow : AFFlow

/-- The `message` output dict. -/
def afMessageEvent (cid mid : String) (textContent : JVal) : JObj :=
  [("conversation_id", .jstr cid), ("thread_id", .jstr cid), ("message_id", .jstr mid),
   ("agent", .jstr "agentflow"), ("content", textContent), ("type", .jstr "message")]

/-- The `data` output dict. -/
def afDataEvent (cid mid : String) (dataJson : JVal) : JObj :=
  [("conversation_id", .jstr cid), ("thread_id", .jstr cid), ("message_id", .jstr mid),
   ("agent", .jstr "agentflow"), ("data", dataJson), ("type", .jstr "data")]

/-- The `metadata` output dict. -/
def afMetadataEvent (cid mid : String) (dataJson : JVal) : JObj :=
  [("conversation_id", .jstr cid), ("thread_id", .jstr cid), ("message_id", .jstr mid),
   ("agent", .jstr "agentflow"), ("context", .jstr (jsonDumps dataJson)),
   ("type", .jstr "metadata")]

/-- The `done` output dict.  The Python dict literal writes `thread_id` twice;
the first occurrence keeps the position and the second occurrence's value
wins. -/
def afDoneEvent (cid mid : String) (tid : JVal) : JObj :=
  [("conversation_id", .jstr cid), ("thread_id", tid), ("message_id", .jstr mid),
   ("agent", .jstr "agentflow"), ("type", .jstr "done"), ("finished", .jbool true)]

/-- The `error` output dict. -/
def afErrorEvent (cid mid : String) (errMsg : JVal) : JObj :=
  [("conversation_id", .jstr cid), ("thread_id", .jstr cid), ("message_id", .jstr mid),
   ("agent", .jstr "agentflow"), ("error", errMsg), ("type", .jstr "error"),
   ("finished", .jbool true)]

/-- The event the generator's `except` clause yields; `excStr` stands for the
Python rendering `str(e)` of the caught exception. -/
def afExcEvent (cid mid excStr : String) : JObj :=
  [("conversation_id", .jstr cid), ("thread_id", .jstr cid), ("message_id", .jstr mid),
   ("agent", .jstr "agentflow"), ("error", .jstr ("流处理异常: " ++ excStr)),
   ("type", .jstr "error"), ("finished", .jbool true)]

/-- The `elif` chain on `current_event_type` applied to one parsed (or
text-wrapped) `data:` payload; the trailing `current_event_type = None` reset
is inside the `data:` block, so every non-`break` arm performs it. -/
def afDataStep (cid mid : String) (st : AFState) (dataJson : JVal) : AFStep :=
  if st.cet == some "message" then
    let textContent : JVal :=
      match dataJson with
      | .jobj o => (jget o "text").getD (.jstr "")
      | v => .jstr (pyStr v)
    if pyTruthy textContent then
      ⟨[afMessageEvent cid mid textContent],
       ⟨none, st.answers ++ [textContent]⟩, .cont⟩
    else ⟨[], { st with cet := none }, .cont⟩
  else if st.cet == some "data" then
    ⟨[afDataEvent cid mid dataJson],
     ⟨none, st.answers ++ [.jstr (jsonDumps dataJson)]⟩, .cont⟩
  else if st.cet == some "metadata" then
    ⟨[afMetadataEvent cid mid dataJson], { st with cet := none }, .cont⟩
  else if st.cet == some "done" then
    match dataJson with
    | .jobj o => ⟨[afDoneEvent cid mid ((jget o "thread_id").getD (.jstr cid))], st, .halt⟩
    | _ => ⟨[], st, .exc⟩
  else if st.cet == some "error" then
    let errMsg : JVal :=
      match dataJson with
      | .jobj o => (jget o "error").getD (.jstr "未知错误")
      | v => .jstr (pyStr v)
    ⟨[afErrorEvent cid mid errMsg], st, .halt⟩
  else ⟨[], { st with cet := none }, .cont⟩

/-- One iteration of the `async for line in response.content` loop of
`agentflow_stream_generator`. -/
def processAFLine (cid mid : String) (st : AFState) (rawLine : String) : AFStep :=
  let raw := pyStrip rawLine
  if raw == "" || strStarts raw ":" then ⟨[], st, .cont⟩
  else if strStarts raw "event:" then
    ⟨[], { st with cet := some (pyStrip (pyReplace raw "event:" "")) }, .cont⟩
  else if strStarts raw "data:" then
    let dataStr := pyStrip (pyReplace raw "data:" "")
    if dataStr == "" then ⟨[], st, .cont⟩
    else afDataStep cid mid st ((jsonLoads dataStr).getD (.jobj [("text", .jstr dataStr)]))
  else ⟨[], st, .cont⟩

/-- The translator's line loop: stops at a `break` (`halt`) or at the first
uncaught exception (`exc`). -/
def afLoop (cid mid : String) (st : AFState) : List String → List JObj × AFState × AFFlow
  | [] => ([], st, .cont)
  | l :: ls =>
    let step := processAFLine cid mid st l
    match step.flow with
    | .cont =>
      let rest := afLoop cid mid step.st ls
      (step.events ++ rest.1, rest.2)
    | .halt => (step.events, step.st, .halt)
    | .exc => (step.events, step.st, .exc)

/-- The translator `agentflow_stream_generator`: the emitted event sequence and the final
`answers` buffer.  An exception escaping the loop yields the single in-band
`error` event before the generator finishes. -/
def agentflowRun (cid mid excStr : String) (lines : List String) :
    List JObj × List JVal :=
  let r := afLoop cid mid ⟨none, []⟩ lines
  match r.2.2 with
  | .exc => (r.1 ++ [afExcEvent cid mid excStr], r.2.1.answers)
  | _ => (r.1, r.2.1.answers)

/-! ### Engine B: `dify_stream_generator` -/

/-- Translator state: the reused, mutated `coordinator_feedback` dict, the
`folded_thinking_process` flag, and the shared buffers. -/
structure DifyState where
  cf : JObj
  folded : Bool
  answers : List JVal
  thought : List JVal

/-- Result of processing one upstream line (or a whole run): the emitted
events, the final state, and the uncaught exception if one aborted the
stream. -/
structure DifyOut where
  events : List JObj
  st : DifyState
  aborted : Option PyErr

/-- How one raw upstream line is classified by the framing code at the top of
the loop body (empty/comment/ping lines, `json.loads` failure, a parse to a
non-object on which `.get` would raise, or a payload object). -/
inductive DLineCase where
  | skipLine
  | malformed
  | nonObj (v : JVal)
  | payload (p : JObj)

/-- The framing checks of `dify_stream_generator`'s loop body. -/
def difyClassify (raw : String) : DLineCase :=
  if raw == "" || strStarts raw ":" then .skipLine
  else
    let line := pyStrip (pyRemovePre raw "data:")
    if line == "ping" then .skipLine
    else
      match jsonLoads line with
      | none => .malformed
      | some (.jobj p) => .payload p
      | some v => .nonObj v

/-- The markup prepended once when `folded_thinking_process` is set. -/
def foldPre : String := "<details open> <summary>深度思考</summary>"

/-- The loading-reveal branch (`event == "message"` and `"loading..." in
answer`): mutates `coordinator_feedback` and yields one snapshot per revealed
character of segment 2.  A missing segment is the uncaught `IndexError`; a
non-string `answer` is the uncaught `TypeError` of the `in` test. -/
def difyBranch1 (st : DifyState) (payload : JObj) :
    List JObj × DifyState × Option PyErr :=
  if jgetIsStr payload "event" "message" then
    match (jget payload "answer").getD .jnull with
    | .jstr ans =>
      if strHasSub ans "loading..." then
        let cf := jset st.cf "loadingText" (.jstr ans)
        let ar := pySplit ans "|"
        -- the guard `if len(answer_result) > 0` always holds: split returns ≥ 1 piece
        match ar[2]?, ar[1]? with
        | some seg2, some seg1 =>
          let r := ljReveal "loadingText" (seg1 ++ "\n\n") cf (reveal seg2)
          (r.1, { st with cf := r.2 }, none)
        | _, _ => ([], { st with cf := cf }, some .indexError)
      else ([], st, none)
    | _ => ([], st, some .typeError)
  else ([], st, none)

/-- The content branch (`event` is `message` or `message_end`), whose body is
wrapped in a `try` that logs and drops the line on any exception (a
non-string `answer` fails the `in` test there). -/
def difyBranch2 (cid mid : String) (st : DifyState) (payload : JObj) :
    List JObj × DifyState :=
  if jgetIsStr payload "event" "message" || jgetIsStr payload "event" "message_end" then
    match (jget payload "answer").getD .jnull with
    | .jstr ans =>
      if strHasSub ans "loading..." then ([], st)
      else
        let answers := if !ans.isEmpty then st.answers ++ [.jstr ans] else st.answers
        let md := (jget payload "metadata").getD .jnull
        let answers := if pyTruthy md then answers ++ [.jstr (jsonDumps md)] else answers
        let pf : JObj × Bool :=
          if st.folded then (jset payload "answer" (.jstr (foldPre ++ ans)), false)
          else (payload, st.folded)
        let p2 := jset (jset pf.1 "conversation_id" (.jstr cid)) "message_id" (.jstr mid)
        ([p2], { st with answers := answers, folded := pf.2 })
    | _ => ([], st)
  else ([], st)

/-- Process one parsed payload object: branch 1 then branch 2. -/
def difyPayloadStep (cid mid : String) (st : DifyState) (payload : JObj) : DifyOut :=
  let b1 := difyBranch1 st payload
  match b1.2.2 with
  | some e => ⟨b1.1, b1.2.1, some e⟩
  | none =>
    let b2 := difyBranch2 cid mid b1.2.1 payload
    ⟨b1.1 ++ b2.1, b2.2, none⟩

/-- One iteration of `dify_stream_generator`'s line loop. -/
def processDifyLine (cid mid : String) (st : DifyState) (raw : String) : DifyOut :=
  match difyClassify raw with
  | .skipLine => ⟨[], st, none⟩
  | .malformed => ⟨[], st, none⟩
  | .nonObj _ => ⟨[], st, some .attrError⟩
  | .payload p => difyPayloadStep cid mid st p

/-- The translator's line loop; an uncaught exception stops it (there is no
`except`/`finally` around this loop in the source). -/
def difyLoop (cid mid : String) (st : DifyState) : List String → DifyOut
  | [] => ⟨[], st, none⟩
  | raw :: ls =>
    let r := processDifyLine cid mid st raw
    match r.aborted with
    | some e => ⟨r.events, r.st, some e⟩
    | none =>
      let rest := difyLoop cid mid r.st ls
      ⟨r.events ++ rest.events, rest.st, rest.aborted⟩

/-- The initial `coordinator_feedback` dict, yielded before the loop. -/
def difyInitEvent (cid mid : String) : JObj :=
  [("conversation_id", .jstr cid), ("message_id", .jstr mid), ("agent", .jstr "coordinator"),
   ("content", .jstr ""), ("loadingText", .jstr "识别用户意图..."), ("type", .jstr "loading")]

/-- Observable outcome of a whole `dify_stream_generator` run. -/
structure DifyRes where
  events : List JObj
  answers : List JVal
  thought : List JVal
  aborted : Option PyErr

/-- The translator `dify_stream_generator`: yields the initial loading event, runs
`handle_multi` on it, then processes the upstream lines. -/
def difyRun (cid mid : String) (folded : Bool) (lines : List String) : DifyRes :=
  let cf0 := difyInitEvent cid mid
  let h := handleMultiF [] [] cid mid cf0
  let r := difyLoop cid mid ⟨h.2.2, folded, h.1, h.2.1⟩ lines
  ⟨cf0 :: r.events, r.st.answers, r.st.thought, r.aborted⟩

/-! ### Engine A: `multi_agent_stream_generator` -/

/-- Translator state: the shared buffers, the sticky `is_coordinator_thought`
flag, and the last seen `thread_id`. -/
structure MAState where
  answers : List JVal
  thought : List JVal
  isCoordThought : Bool
  threadId : JVal

/-- Result of processing one parsed line (or a prefix of the run). -/
structure MAOut where
  events : List JObj
  st : MAState
  aborted : Option PyErr

/-- Text of the follow-up event after the loading reveal. -/
def maPlanningText : String := "正在规划任务，请稍后......."

/-- Prefix of each revealed loading text. -/
def maLoadingPre : String := "识别用户意图...\n\n"

/-- The coordinator branch: on a `loading...` content it reveals segment 1 of
the pipe-split character by character, then yields one planning follow-up;
otherwise it forwards the line unchanged.  A one-segment split is the
uncaught `IndexError`; a non-string `content` is the uncaught `TypeError`. -/
def maPhase1 (cid mid : String) (st : MAState) (lj : JObj) :
    List JObj × MAState × JObj × Option PyErr :=
  if jgetIsStr lj "agent" "coordinator" && st.isCoordThought && jhas lj "content" then
    match (jget lj "content").getD .jnull with
    | .jstr content =>
      if strHasSub content "loading..." then
        let ar := pySplit content "|"
        -- the guard `if len(answer_result) > 0` always holds
        match ar[1]? with
        | some text =>
          let lj1 := jset (jset lj "content" (.jstr "")) "type" (.jstr "loading")
          let r := ljReveal "loadingText" maLoadingPre lj1 (reveal text)
          let h := handleMultiF st.answers st.thought cid mid r.2
          let lj2 := jset (jset h.2.2 "content" (.jstr "")) "loadingText" (.jstr maPlanningText)
          (r.1 ++ [lj2], { st with answers := h.1, thought := h.2.1 }, lj2, none)
        | none => ([], st, lj, some .indexError)
      else ([lj], st, lj, none)
    | _ => ([], st, lj, some .typeError)
  else ([], st, lj, none)

/-- The `thought` branch: strips the sentinel, records the thought, and yields
the dict once per character with `thought` set to that character. -/
def maPhase2 (st : MAState) (lj : JObj) :
    List JObj × MAState × JObj × Option PyErr :=
  let v := (jget lj "content").getD .jnull
  if pyTruthy v then
    match v with
    | .jstr c =>
      if strHasSub c "thought" then
        let content := pyReplace c "thought" ""
        let lj1 := jset (jdel lj "content") "thought" (.jstr (content ++ "\n\n\n"))
        let st1 := { st with thought := st.thought ++ [.jstr (content ++ "\n\n\n")] }
        let r := ljCharSeq "thought" lj1 content.toList
        (r.1, st1, r.2, none)
      else ([], st, lj, none)
    | _ => ([], st, lj, some .typeError)
  else ([], st, lj, none)

/-- The `flag` branch, inside an inner `try` that swallows its exceptions:
strips the sentinel, yields once, and records the content via
`handle_multi`. -/
def maPhase3 (cid mid : String) (st : MAState) (lj : JObj) : List JObj × MAState :=
  let v := (jget lj "content").getD .jnull
  if pyTruthy v then
    match v with
    | .jstr c =>
      if strHasSub c "flag" then
        let content := pyReplace c "flag" ""
        let lj1 := jset lj "content" (.jstr content)
        let h := handleMultiF st.answers st.thought cid mid lj1
        ([lj1], { st with answers := h.1, thought := h.2.1 })
      else ([], st)
    | _ => ([], st)
  else ([], st)

/-- Process one parsed `line_json`: update `thread_id` and the sticky
coordinator flag, then run the three branches in order on the mutated dict. -/
def processParsedMA (cid mid : String) (st0 : MAState) (lj : JObj) : MAOut :=
  let stA := { st0 with threadId := (jget lj "thread_id").getD .jnull }
  let isCT := stA.isCoordThought ||
    (jgetIsStr lj "agent" "coordinator" &&
      (jgetIsStr lj "finish_reason" "tool_calls" || jgetIsStr lj "finish_reason" "stop"))
  let stB := { stA with isCoordThought := isCT }
  match maPhase1 cid mid stB lj with
  | (e1, st1, _, some err) => ⟨e1, st1, some err⟩
  | (e1, st1, lj1, none) =>
    match maPhase2 st1 lj1 with
    | (e2, st2, _, some err) => ⟨e1 ++ e2, st2, some err⟩
    | (e2, st2, lj2, none) =>
      match maPhase3 cid mid st2 lj2 with
      | (e3, st3) => ⟨e1 ++ e2 ++ e3, st3, none⟩

/-- The translator's line loop: only lines containing `data` are considered;
`json.loads` runs with no per-line error handling, so a malformed line (and a
parse to a non-object) jumps to the generator's outer `except`. -/
def maLoop (cid mid : String) (st : MAState) : List String → MAOut
  | [] => ⟨[], st, none⟩
  | raw :: ls =>
    if strHasSub raw "data" then
      let line := pyStrip (pyRemovePre raw "data:")
      match jsonLoads line with
      | none => ⟨[], st, some .jsonDecodeError⟩
      | some (.jobj lj) =>
        let r := processParsedMA cid mid st lj
        match r.aborted with
        | some e => ⟨r.events, r.st, some e⟩
        | none =>
          let rest := maLoop cid mid r.st ls
          ⟨r.events ++ rest.events, rest.st, rest.aborted⟩
      | some _ => ⟨[], st, some .attrError⟩
    else maLoop cid mid st ls

/-- The initial `coordinator_feedback` dict of the multi-agent translator. -/
def maInitEvent (cid mid : String) : JObj :=
  [("conversation_id", .jstr cid), ("message_id", .jstr mid), ("agent", .jstr "coordinator"),
   ("content", .jstr ""), ("type", .jstr "loading"), ("loadingText", .jstr "识别用户意图...")]

/-- The dict the outer `except` clause yields (`endId` stands for the fresh
`uuid.uuid4()` it embeds). -/
def maEndMsg (threadId : JVal) (endId : String) : JObj :=
  [("thread_id", threadId), ("id", .jstr endId), ("role", .jstr "assistant"),
   ("content", .jstr "")]

/-- Observable outcome of a whole `multi_agent_stream_generator` run. -/
structure MARes where
  events : List JObj
  answers : List JVal
  thought : List JVal
  aborted : Option PyErr

/-- The translator `multi_agent_stream_generator`: initial loading event, `handle_multi` on
it, the line loop; an escaping exception yields the `except` clause's end
message; the `finally` clause runs `handle_multi` on a fresh dict whose
`thought` is a newline (`finId` stands for its embedded `uuid.uuid4()`). -/
def multiAgentRun (cid mid endId finId : String) (lines : List String) : MARes :=
  let cf0 := maInitEvent cid mid
  let h0 := handleMultiF [] [] cid mid cf0
  let st0 : MAState := ⟨h0.1, h0.2.1, false, .jstr ""⟩
  let r := maLoop cid mid st0 lines
  let evs := cf0 :: r.events ++ (match r.aborted with
    | some _ => [maEndMsg r.st.threadId endId]
    | none => [])
  let finLj : JObj := [("thread_id", r.st.threadId), ("id", .jstr finId),
    ("role", .jstr "assistant"), ("thought", .jstr "\n")]
  let hf := handleMultiF r.st.answers r.st.thought cid mid finLj
  ⟨evs, hf.1, hf.2.1, r.aborted⟩

/-! ### Session-id resolution and task scheduling in the route handlers -/

/-- Python `not conversation_id` on the value of
`req.context.get("conversation_id")`: true when the key is absent or the
string is empty. -/
def pyFalsyId : Option String → Bool
  | none => true
  | some s => s.isEmpty

/-- The observable session side effects of a route handler: the resolved
conversation id and how many `save_conversation_async` /
`gen_summary_async` tasks it schedules via `asyncio.create_task`. -/
structure SessionEffects where
  conversationId : String
  saveConversationTasks : Nat
  genSummaryTasks : Nat

/-- Session section of `handle_agent_flow` (api.py lines 209-215): both task
creations are inside the `if not conversation_id` block.  `fresh` stands for
`uuid.uuid4().hex`. -/
def handleAgentFlowSession (reqCid : Option String) (fresh : String) : SessionEffects :=
  if pyFalsyId reqCid then ⟨fresh, 1, 1⟩
  else ⟨reqCid.getD fresh, 0, 0⟩

/-- Session section of `handle_dify` (api.py lines 462-473): both task
creations are inside the `if not conversation_id` block. -/
def handleDifySession (reqCid : Option String) (fresh : String) : SessionEffects :=
  if pyFalsyId reqCid then ⟨fresh, 1, 1⟩
  else ⟨reqCid.getD fresh, 0, 0⟩

/-- Session section of `handle_uyun` (api.py lines 530-542): only the
reassignment `conversation_id = uuid.uuid4().hex` is inside the
`if not conversation_id` block; the `asyncio.create_task(save_conversation_async(...))`
call (line 533) and the `asyncio.create_task(gen_summary_async(...))` call
(line 542) are dedented to the surrounding level and run unconditionally. -/
def handleUyunSession (reqCid : Option String) (fresh : String) : SessionEffects :=
  let cid := if pyFalsyId reqCid then fresh else reqCid.getD fresh
  ⟨cid, 1, 1⟩

/-! ### `chat_streaming` source dispatch -/

/-- The three translator pipelines a request can be routed to. -/
inductive EngineKind where
  | uyun
  | dify
  | agentflow

/-- Outcome of the dispatch in `chat_streaming`: a handler is entered (and
only then is an upstream call made and a stream started), or the
`ApiException(500, ...)` of the `else` arm is raised — it is re-raised by the
`except` clause as a 500 `ValueError` whose text embeds the same message
(`ApiException`, from the external `service.response` module, carries its
status and message).  A truthy non-dict `scene` would fail at
`scene.get("source")`. -/
inductive ChatDispatch where
  | handler (k : EngineKind)
  | routingError (status : Nat) (msg : String)
  | attrFailure

/-- The fixed routing-error message of `chat_streaming`'s `else` arm. -/
def routingMsg : String := "暂无平台来源，请联系管理员！"

/-- The `scene` / `source` dispatch of `chat_streaming` (api.py lines
168-193): a falsy `scene` goes to `handle_uyun`; otherwise `scene.get("source")`
selects the handler, any other value raises the routing error. -/
def chatRoute (scene : Option JVal) : ChatDispatch :=
  if !pyTruthy (scene.getD .jnull) then .handler .uyun
  else
    match scene.getD .jnull with
    | .jobj sc =>
      if jgetIsStr sc "source" "OpsMind" || jgetIsStr sc "source" "BitMind" then
        .handler .uyun
      else if jgetIsStr sc "source" "dify" then .handler .dify
      else if jgetIsStr sc "source" "agentflow" then .handler .agentflow
      else .routingError 500 routingMsg
    | _ => .attrFailure

/-! ### `AgentRegistry` and the `stream_agent` endpoint -/

/-- An agent as the registry sees it (`AgentBase.__init__` sets `name` and
`description`). -/
structure AgentBase where
  name : String
  description : String

/-- The registry's `_agents` dict. -/
abbrev Registry := List (String × AgentBase)

/-- The method `AgentRegistry.register`: `cls._agents[agent.name] = agent`. -/
def registryRegister (r : Registry) (a : AgentBase) : Registry :=
  dictSet r a.name a

/-- The `ValueError` message of `AgentRegistry.get`. -/
def registryErrMsg (r : Registry) (n : String) : String :=
  "智能体 \x27" ++ n ++ "\x27 不存在。可用的智能体: " ++ joinSep ", " (r.map (·.1))

/-- The method `AgentRegistry.get`: raises `ValueError` exactly when the name is not a
key of `_agents` (`n not in _agents` is `dictGet r n = none`), otherwise
returns `_agents[n]`. -/
def registryGet (r : Registry) (n : String) : Except String AgentBase :=
  match dictGet r n with
  | some a => .ok a
  | none => .error (registryErrMsg r n)

/-- Outcome of the `stream_agent` endpoint's dispatch: the streaming response
is built around the found agent, or an `HTTPException` is returned.  (The
`hasattr(agent, 'stream')` 400 branch is dead: `AgentBase` defines a default
`stream`.) -/
inductive StreamAgentResult where
  | streaming (a : AgentBase)
  | httpError (status : Nat) (detail : String)

/-- The endpoint dispatch of `stream_agent`: the `except ValueError` clause converts the
registry's error into `HTTPException(status_code=404, detail=str(e))`. -/
def streamAgentDispatch (r : Registry) (n : String) : StreamAgentResult :=
  match registryGet r n with
  | .ok a => .streaming a
  | .error e => .httpError 404 e

/-! ### Derived observations used by the theorems -/

/-- The payloads of the `message`-type events in an emitted sequence. -/
def afMsgPayloads (evs : List JObj) : List JVal :=
  evs.filterMap (fun e => if jgetIsStr e "type" "message" then jget e "content" else none)

/-- A raw upstream line that sets `current_event_type` to `"data"`. -/
def afIsDataEventLine (raw : String) : Bool :=
  strStarts (pyStrip raw) "event:" &&
    (pyStrip (pyReplace (pyStrip raw) "event:" "") == "data")

/-- Payload-level test for a content-bearing Dify line: `event` is `message`
or `message_end` and `answer` is a string without the loading sentinel —
exactly the condition under which branch 2 yields the payload. -/
def difyContentCheck (p : JObj) : Bool :=
  match jget p "event", jget p "answer" with
  | some (.jstr ev), some (.jstr a) =>
    (ev == "message" || ev == "message_end") && !strHasSub a "loading..."
  | _, _ => false

/-- The payload of a well-formed content line, `none` otherwise. -/
def difyContentPayload (raw : String) : Option JObj :=
  match difyClassify raw with
  | .payload p => if difyContentCheck p then some p else none
  | _ => none

/-- A malformed upstream line: it reaches `json.loads` and fails to parse. -/
def difyIsMalformed (raw : String) : Bool :=
  match difyClassify raw with
  | .malformed => true
  | _ => false

/-- The event emitted for a content payload (with `folded_thinking_process`
off): the payload stamped with the caller's ids. -/
def difyContentEvent (cid mid : String) (p : JObj) : JObj :=
  jset (jset p "conversation_id" (.jstr cid)) "message_id" (.jstr mid)

/-- A line that is either a well-formed content line or malformed — the two
kinds of line the interleaving property quantifies over. -/
def difyLineOk (raw : String) : Bool :=
  (difyContentPayload raw).isSome || difyIsMalformed raw

/-! ## Basic lemmas about the dict model -/

theorem dictGet_set_self {α : Type} (o : List (String × α)) (k : String) (v : α) :
    dictGet (dictSet o k v) k = some v := by
  induction o with
  | nil => simp [dictSet, dictGet]
  | cons p t ih =>
    by_cases h : (p.1 == k) = true
    · simp [dictSet, dictGet, h]
    · simp only [Bool.not_eq_true] at h
      simp [dictSet, dictGet, h, ih]

theorem dictGet_set_ne {α : Type} (o : List (String × α)) (k1 k2 : String) (v : α)
    (h : (k1 == k2) = false) :
    dictGet (dictSet o k1 v) k2 = dictGet o k2 := by
  induction o with
  | nil => simp [dictSet, dictGet, h]
  | cons p t ih =>
    by_cases hp : (p.1 == k1) = true
    · have hk : p.1 = k1 := by simpa using hp
      simp [dictSet, dictGet, hp, h, hk]
    · simp only [Bool.not_eq_true] at hp
      by_cases hq : (p.1 == k2) = true
      · simp [dictSet, dictGet, hp, hq]
      · simp only [Bool.not_eq_true] at hq
        simp [dictSet, dictGet, hp, hq, ih]

theorem jget_jset_self (o : JObj) (k : String) (v : JVal) :
    jget (jset o k v) k = some v :=
  dictGet_set_self o k v

theorem jget_jset_ne (o : JObj) (k1 k2 : String) (v : JVal) (h : (k1 == k2) = false) :
    jget (jset o k1 v) k2 = jget o k2 :=
  dictGet_set_ne o k1 k2 v h

theorem jget_some_jhas (o : JObj) (k : String) (v : JVal) (h : jget o k = some v) :
    jhas o k = true := by
  induction o with
  | nil => simp [jget, dictGet] at h
  | cons p t ih =>
    by_cases hp : (p.1 == k) = true
    · simp [jhas, dictHas, hp]
    · simp only [Bool.not_eq_true] at hp
      simp [jget, dictGet, hp] at h
      simp [jhas, dictHas, hp]
      exact ih h

/-! ## Lemmas about the reveal loops -/

theorem ljReveal_map_key (key pre : String) (lj : JObj) (ts : List String) :
    (ljReveal key pre lj ts).1.map (fun e => jget e key)
      = ts.map (fun t => some (.jstr (pre ++ t))) := by
  induction ts generalizing lj with
  | nil => simp [ljReveal]
  | cons t ts ih => simp [ljReveal, jget_jset_self, ih]

theorem ljReveal_length (key pre : String) (lj : JObj) (ts : List String) :
    (ljReveal key pre lj ts).1.length = ts.length := by
  have h := congrArg List.length (ljReveal_map_key key pre lj ts)
  simpa using h

theorem ljReveal_snd_other (key pre : String) (lj : JObj) (ts : List String)
    (k2 : String) (h : (key == k2) = false) :
    jget (ljReveal key pre lj ts).2 k2 = jget lj k2 := by
  induction ts generalizing lj with
  | nil => simp [ljReveal]
  | cons t ts ih =>
    show jget (ljReveal key pre (jset lj key (.jstr (pre ++ t))) ts).2 k2 = jget lj k2
    rw [ih]
    exact jget_jset_ne _ _ _ _ h

theorem revealSteps_length (acc : String) (cs : List Char) :
    (revealSteps acc cs).length = cs.length := by
  induction cs generalizing acc with
  | nil => simp [revealSteps]
  | cons c cs ih => simp [revealSteps, ih]

theorem reveal_length (s : String) : (reveal s).length = s.length :=
  revealSteps_length "" s.toList

/-! ## Claim theorems: concrete runs -/

/-- Claim C1, counterexample: the claim asserts that every stream emitted by
any of the three translators contains exactly one terminal (`done`/`error`)
event.  The Dify translator on an upstream stream with no lines completes
normally (no uncaught exception) after emitting a single `loading` event and
zero terminal events, so a completed stream can have no terminal event at
all. -/
theorem spec_c1_counterexample :
    let r := difyRun "c" "m" false []
    r.aborted = none ∧ r.events.length = 1 ∧ (r.events.filter isTerminal).length = 0 :=
  ⟨rfl, rfl, rfl⟩

/-- Claim C2, counterexample: the claim asserts every translator skips
malformed lines and still emits the content of the well-formed lines.  The
multi-agent translator has no per-line error handling around `json.loads`:
on the stream `["data: nope", <well-formed flag line>]` it aborts at the
malformed first line (outer `except` yields the end message), emits only the
initial loading event plus that end message, and buffers no answer — while
the same flag line alone does yield its content `Hello`. -/
theorem spec_c2_counterexample :
    let r := multiAgentRun "c" "m" "e1" "f1"
      ["data: nope", "data: \x7b\"agent\":\"worker\",\"content\":\"flagHello\"\x7d"]
    r.aborted = some .jsonDecodeError ∧ r.events.length = 2 ∧ r.answers = [] ∧
    (multiAgentRun "c" "m" "e1" "f1"
      ["data: \x7b\"agent\":\"worker\",\"content\":\"flagHello\"\x7d"]).answers = [.jstr "Hello"] :=
  ⟨rfl, rfl, rfl, rfl⟩

/-- Claim C3: the claim says that with an existing `conversation_id` none of
the handlers schedules a session-creation or summary task.  `handle_dify` and
`handle_agent_flow` satisfy this, but in `handle_uyun` the two
`asyncio.create_task` calls are dedented out of the `if not conversation_id`
block and run unconditionally: with `conversation_id = "abc"` it still
schedules one `save_conversation_async` and one `gen_summary_async` task.
The code contradicts its own comment and the two sibling handlers, so this
is recorded as a code bug. -/
theorem spec_c3_uyun_schedules_unconditionally :
    handleUyunSession (some "abc") "fresh" = ⟨"abc", 1, 1⟩ ∧
    handleDifySession (some "abc") "fresh" = ⟨"abc", 0, 0⟩ ∧
    handleAgentFlowSession (some "abc") "fresh" = ⟨"abc", 0, 0⟩ ∧
    handleUyunSession none "fresh" = ⟨"fresh", 1, 1⟩ :=
  ⟨rfl, rfl, rfl, rfl⟩

/-- Claim C4, counterexample: the claim asserts that for every completed
translator stream the concatenated `message` payloads equal the buffered
answer handed to persistence.  The agentflow translator, on a stream with a
single `data` event, emits no `message` event but appends the serialized
data object to the answers buffer, so the two sides differ. -/
theorem spec_c4_counterexample :
    let r := agentflowRun "c" "m" "E" ["event: data", "data: \x7b\"x\":\"1\"\x7d"]
    afMsgPayloads r.1 = [] ∧ r.2 = [.jstr "\x7b\"x\": \"1\"\x7d"] ∧ r.1.length = 1 :=
  ⟨rfl, rfl, rfl⟩

/-- Claim C6: on the single upstream line
`data: {"event":"message","answer":"loading...|识别用户意图|AB"}` the Dify
translator completes without error and yields, after the fixed initial
loading event, exactly two sequential `loading` events whose `loadingText`
values are `识别用户意图\n\nA` then `识别用户意图\n\nAB` — in particular they
end in those strings, the character-by-character reveal of segment 2 prefixed
by segment 1. -/
theorem spec_c6_loading_reveal :
    (difyRun "c" "m" false
      ["data: \x7b\"event\":\"message\",\"answer\":\"loading...|识别用户意图|AB\"\x7d"]).aborted = none ∧
    (difyRun "c" "m" false
      ["data: \x7b\"event\":\"message\",\"answer\":\"loading...|识别用户意图|AB\"\x7d"]).events.length = 3 ∧
    ((difyRun "c" "m" false
      ["data: \x7b\"event\":\"message\",\"answer\":\"loading...|识别用户意图|AB\"\x7d"]).events.drop 1).map
        (fun e => (jget e "type", jget e "loadingText")) =
      [(some (.jstr "loading"), some (.jstr "识别用户意图\n\nA")),
       (some (.jstr "loading"), some (.jstr "识别用户意图\n\nAB"))] ∧
    ((difyRun "c" "m" false
      ["data: \x7b\"event\":\"message\",\"answer\":\"loading...|识别用户意图|AB\"\x7d"]).events.drop 1).map
        (fun e =>
          match jget e "loadingText" with
          | some (.jstr t) => some (strEnds t "识别用户意图\n\nA", strEnds t "识别用户意图\n\nAB")
          | _ => none) = [some (true, false), some (false, true)] :=
  ⟨rfl, rfl, rfl, rfl⟩

/-- Claim C7, counterexample: the claim asserts one loading event per
character of the incremental text (segment 2).  On a coordinator chunk whose
content is `loading...|AB|XYZ` the translator emits one loading event per
character of the status label `AB` (segment 1) — loadingTexts
`识别用户意图...\n\nA` and `识别用户意图...\n\nAB` — followed by the single
planning follow-up; no emitted event reveals any character of segment 2
(`XYZ`). -/
theorem spec_c7_counterexample :
    let r := multiAgentRun "c" "m" "e1" "f1"
      ["data: \x7b\"agent\":\"coordinator\",\"finish_reason\":\"stop\",\"content\":\"loading...|AB|XYZ\"\x7d"]
    r.aborted = none ∧
    r.events.map (fun e => jget e "loadingText") =
      [some (.jstr "识别用户意图..."), some (.jstr "识别用户意图...\n\nA"),
       some (.jstr "识别用户意图...\n\nAB"), some (.jstr "正在规划任务，请稍后.......")] ∧
    (r.events.all fun e =>
      match jget e "loadingText" with
      | some (.jstr t) => !strHasSub t "X"
      | _ => true) = true :=
  ⟨rfl, rfl, rfl⟩

/-- Claim C9: a Dify upstream line whose event is `message` and whose answer
contains `loading...` but splits on `|` into fewer than three segments (here
the answer is exactly `loading...`) makes the translator raise an uncaught
`IndexError` at `answer_result[2]` — the split-length guard only checks
non-emptiness — so the stream aborts after the single initial loading event,
without a terminal event. -/
theorem spec_c9_index_abort :
    (difyRun "c" "m" false
      ["data: \x7b\"event\":\"message\",\"answer\":\"loading...\"\x7d"]).aborted = some .indexError ∧
    (difyRun "c" "m" false
      ["data: \x7b\"event\":\"message\",\"answer\":\"loading...\"\x7d"]).events.length = 1 ∧
    ((difyRun "c" "m" false
      ["data: \x7b\"event\":\"message\",\"answer\":\"loading...\"\x7d"]).events.filter isTerminal).length = 0 :=
  ⟨rfl, rfl, rfl⟩

/-- Claim C8: a chat request whose `context.scene` is present (a non-empty
dict) and whose `scene.source` is none of `OpsMind`, `BitMind`, `dify`,
`agentflow` is dispatched by `chat_streaming` to the `ApiException(500, ...)`
arm carrying the fixed routing message `暂无平台来源，请联系管理员！` (re-raised
by the `except` clause as a 500 failure embedding the same message); no
handler — and therefore no upstream call or stream — is started. -/
theorem spec_c8_routing (sc : JObj) (hne : sc ≠ [])
    (h1 : jgetIsStr sc "source" "OpsMind" = false)
    (h2 : jgetIsStr sc "source" "BitMind" = false)
    (h3 : jgetIsStr sc "source" "dify" = false)
    (h4 : jgetIsStr sc "source" "agentflow" = false) :
    chatRoute (some (.jobj sc)) = .routingError 500 routingMsg := by
  have htr : pyTruthy (JVal.jobj sc) = true := by
    cases sc with
    | nil => exact absurd rfl hne
    | cons p t => simp [pyTruthy]
  simp [chatRoute, htr, h1, h2, h3, h4]

/-- Witness for C8: the scene `{"source": "foo"}` routes to the fixed
500 routing error. -/
theorem spec_c8_witness :
    chatRoute (some (.jobj [("source", .jstr "foo")])) = .routingError 500 routingMsg :=
  spec_c8_routing [("source", .jstr "foo")] (by simp) rfl rfl rfl rfl

/-- Claim C10: `AgentRegistry.get` returns the agent most recently registered
under a name (`register` overwrites a dict entry in place), raises
`ValueError` exactly when no agent is registered under the name, and the
`stream_agent` endpoint converts that `ValueError` into an
`HTTPException(404)` carrying its message. -/
theorem spec_c10_registry (r : Registry) (a : AgentBase) (n : String) :
    registryGet (registryRegister r a) a.name = .ok a ∧
    ((∃ e, registryGet r n = .error e) ↔ dictGet r n = none) ∧
    (dictGet r n = none → streamAgentDispatch r n = .httpError 404 (registryErrMsg r n)) := by
  refine ⟨?_, ?_, ?_⟩
  · simp [registryGet, registryRegister, dictGet_set_self]
  · cases hd : dictGet r n with
    | none => simp [registryGet, hd]
    | some x => simp [registryGet, hd]
  · intro h
    simp [streamAgentDispatch, registryGet, h]

/-- Witness for C10: registering an agent makes `get` return it, and looking
up a missing name in the empty registry yields the 404 conversion. -/
theorem spec_c10_witness :
    registryGet (registryRegister [] ⟨"a", "d"⟩) "a" = .ok ⟨"a", "d"⟩ ∧
    streamAgentDispatch [] "x" = .httpError 404 (registryErrMsg [] "x") :=
  ⟨(spec_c10_registry [] ⟨"a", "d"⟩ "x").1, (spec_c10_registry [] ⟨"a", "d"⟩ "x").2.2 rfl⟩

/-! ## Claim theorems: general properties of the translators -/


theorem isTerminal_afMessageEvent (cid mid : String) (t : JVal) :
    isTerminal (afMessageEvent cid mid t) = false := rfl
theorem isTerminal_afDataEvent (cid mid : String) (d : JVal) :
    isTerminal (afDataEvent cid mid d) = false := rfl
theorem isTerminal_afMetadataEvent (cid mid : String) (d : JVal) :
    isTerminal (afMetadataEvent cid mid d) = false := rfl

theorem afDataStep_cases (cid mid : String) (st : AFState) (d : JVal) :
    ((afDataStep cid mid st d).flow = .cont →
      ((afDataStep cid mid st d).events.all (fun e => !isTerminal e)) = true) ∧
    ((afDataStep cid mid st d).flow = .halt →
      (afDataStep cid mid st d).events.length = 1) ∧
    ((afDataStep cid mid st d).flow = .exc →
      (afDataStep cid mid st d).events = []) := by
  unfold afDataStep
  by_cases h1 : (st.cet == some "message") = true
  · simp only [h1, if_true]
    split <;> simp [isTerminal_afMessageEvent]
  · simp only [h1, Bool.false_eq_true, if_false]
    by_cases h2 : (st.cet == some "data") = true
    · simp [h2, isTerminal_afDataEvent]
    · simp only [h2, Bool.false_eq_true, if_false]
      by_cases h3 : (st.cet == some "metadata") = true
      · simp [h3, isTerminal_afMetadataEvent]
      · simp only [h3, Bool.false_eq_true, if_false]
        by_cases h4 : (st.cet == some "done") = true
        · simp only [h4, if_true]
          split <;> simp
        · simp only [h4, Bool.false_eq_true, if_false]
          by_cases h5 : (st.cet == some "error") = true
          · simp [h5]
          · simp [h5]

theorem processAFLine_cases (cid mid : String) (st : AFState) (raw : String) :
    ((processAFLine cid mid st raw).flow = .cont →
      ((processAFLine cid mid st raw).events.all (fun e => !isTerminal e)) = true) ∧
    ((processAFLine cid mid st raw).flow = .halt →
      (processAFLine cid mid st raw).events.length = 1) ∧
    ((processAFLine cid mid st raw).flow = .exc →
      (processAFLine cid mid st raw).events = []) := by
  simp only [processAFLine]
  by_cases h1 : (pyStrip raw == "" || strStarts (pyStrip raw) ":") = true
  · simp [h1]
  · rw [if_neg h1]
    by_cases h2 : strStarts (pyStrip raw) "event:" = true
    · rw [if_pos h2]
      simp
    · rw [if_neg h2]
      by_cases h3 : strStarts (pyStrip raw) "data:" = true
      · rw [if_pos h3]
        by_cases h4 : (pyStrip (pyReplace (pyStrip raw) "data:" "") == "") = true
        · rw [if_pos h4]
          simp
        · rw [if_neg h4]
          exact afDataStep_cases cid mid st _
      · rw [if_neg h3]
        simp

theorem all_of_dropLast {α : Type} {q : α → Bool} {l : List α} (h : l.all q = true) :
    l.dropLast.all q = true := by
  rw [List.all_eq_true] at *
  intro x hx
  exact h x (List.dropLast_subset _ hx)

theorem all_append_dropLast {α : Type} {q : α → Bool} {a b : List α}
    (ha : a.all q = true) (hb : b.dropLast.all q = true) :
    ((a ++ b).dropLast.all q) = true := by
  rcases List.eq_nil_or_concat b with rfl | ⟨ys, y, rfl⟩
  · rw [List.append_nil]
    exact all_of_dropLast ha
  · rw [List.concat_eq_append] at *
    rw [← List.append_assoc, List.dropLast_concat]
    rw [List.dropLast_concat] at hb
    rw [List.all_append, ha, hb]
    rfl

theorem filter_len_le_one_of_dropLast {α : Type} {q : α → Bool} {l : List α}
    (h : (l.dropLast.all fun x => !q x) = true) : (l.filter q).length ≤ 1 := by
  rcases List.eq_nil_or_concat l with rfl | ⟨ys, y, rfl⟩
  · simp
  · rw [List.concat_eq_append] at *
    rw [List.dropLast_concat] at h
    rw [List.filter_append]
    have hys : ys.filter q = [] := by
      rw [List.filter_eq_nil_iff]
      intro a ha
      have := (List.all_eq_true.mp h) a ha
      simpa using this
    rw [hys]
    simp only [List.nil_append]
    cases hq : q y <;> simp [List.filter, hq]

theorem afLoop_term (cid mid : String) (lines : List String) (st : AFState) :
    ((afLoop cid mid st lines).2.2 = .halt →
      ((afLoop cid mid st lines).1.dropLast.all (fun e => !isTerminal e)) = true) ∧
    ((afLoop cid mid st lines).2.2 ≠ .halt →
      ((afLoop cid mid st lines).1.all (fun e => !isTerminal e)) = true) := by
  induction lines generalizing st with
  | nil => simp [afLoop]
  | cons l ls ih =>
    have hc := processAFLine_cases cid mid st l
    cases hf : (processAFLine cid mid st l).flow with
    | cont =>
      have hev := hc.1 hf
      simp only [afLoop, hf]
      constructor
      · intro hh
        exact all_append_dropLast hev ((ih _).1 hh)
      · intro hh
        rw [List.all_append, hev, (ih _).2 hh]
        rfl
    | halt =>
      have hlen := hc.2.1 hf
      simp only [afLoop, hf]
      constructor
      · intro _
        rcases List.length_eq_one.mp hlen with ⟨a, ha⟩
        rw [ha]
        rfl
      · intro hh
        exact absurd rfl hh
    | exc =>
      have hev := hc.2.2 hf
      simp only [afLoop, hf]
      constructor
      · intro hh
        exact absurd hh (by simp)
      · intro _
        rw [hev]
        rfl

/-- Claim C1, amended: only the agentflow translator guarantees terminal-event
discipline.  For every upstream stream (and any exception rendering), every
event before the last one in the emitted sequence is non-terminal, and hence
at most one terminal (`done`/`error`) event is emitted, with nothing after
it.  (The Dify and multi-agent translators can complete without any terminal
event, as the C1 counterexample shows.) -/
theorem spec_c1_amended (cid mid excStr : String) (lines : List String) :
    (((agentflowRun cid mid excStr lines).1.dropLast.all (fun e => !isTerminal e)) = true) ∧
    ((agentflowRun cid mid excStr lines).1.filter isTerminal).length ≤ 1 := by
  have h := afLoop_term cid mid lines ⟨none, []⟩
  have hmain : ((agentflowRun cid mid excStr lines).1.dropLast.all (fun e => !isTerminal e)) = true := by
    simp only [agentflowRun]
    cases hf : (afLoop cid mid ⟨none, []⟩ lines).2.2 with
    | cont =>
      simp only [hf]
      exact all_of_dropLast (h.2 (by simp [hf]))
    | halt =>
      simp only [hf]
      exact h.1 hf
    | exc =>
      simp only [hf]
      rw [List.dropLast_concat]
      exact h.2 (by simp [hf])
  exact ⟨hmain, filter_len_le_one_of_dropLast hmain⟩

theorem some_beq_some (a b : String) : ((some a == some b)) = (a == b) := rfl

theorem afMsgPayloads_append (a b : List JObj) :
    afMsgPayloads (a ++ b) = afMsgPayloads a ++ afMsgPayloads b :=
  List.filterMap_append a b _

theorem afMsgPayloads_message (cid mid : String) (t : JVal) :
    afMsgPayloads [afMessageEvent cid mid t] = [t] := rfl
theorem afMsgPayloads_data (cid mid : String) (d : JVal) :
    afMsgPayloads [afDataEvent cid mid d] = [] := rfl
theorem afMsgPayloads_metadata (cid mid : String) (d : JVal) :
    afMsgPayloads [afMetadataEvent cid mid d] = [] := rfl
theorem afMsgPayloads_done (cid mid : String) (t : JVal) :
    afMsgPayloads [afDoneEvent cid mid t] = [] := rfl
theorem afMsgPayloads_error (cid mid : String) (e : JVal) :
    afMsgPayloads [afErrorEvent cid mid e] = [] := rfl
theorem afMsgPayloads_exc (cid mid s : String) :
    afMsgPayloads [afExcEvent cid mid s] = [] := rfl

theorem afDataStep_no_data (cid mid : String) (st : AFState) (d : JVal)
    (hst : (st.cet == some "data") = false) :
    ((afDataStep cid mid st d).st.cet == some "data") = false ∧
    ∃ newA, (afDataStep cid mid st d).st.answers = st.answers ++ newA ∧
      afMsgPayloads (afDataStep cid mid st d).events = newA := by
  unfold afDataStep
  by_cases h1 : (st.cet == some "message") = true
  · rw [if_pos h1]
    split <;> dsimp only <;> split <;>
      first
      | exact ⟨rfl, [_], rfl, afMsgPayloads_message cid mid _⟩
      | exact ⟨rfl, [], by simp, rfl⟩
  · rw [if_neg h1, if_neg (by simp [hst])]
    by_cases h3 : (st.cet == some "metadata") = true
    · rw [if_pos h3]
      exact ⟨rfl, [], by simp, afMsgPayloads_metadata cid mid _⟩
    · rw [if_neg h3]
      by_cases h4 : (st.cet == some "done") = true
      · rw [if_pos h4]
        split
        · exact ⟨hst, [], by simp, afMsgPayloads_done cid mid _⟩
        · exact ⟨hst, [], by simp, rfl⟩
      · rw [if_neg h4]
        by_cases h5 : (st.cet == some "error") = true
        · rw [if_pos h5]
          exact ⟨hst, [], by simp, afMsgPayloads_error cid mid _⟩
        · rw [if_neg h5]
          exact ⟨rfl, [], by simp, rfl⟩

theorem processAFLine_no_data (cid mid : String) (st : AFState) (raw : String)
    (hst : (st.cet == some "data") = false) (hraw : afIsDataEventLine raw = false) :
    ((processAFLine cid mid st raw).st.cet == some "data") = false ∧
    ∃ newA, (processAFLine cid mid st raw).st.answers = st.answers ++ newA ∧
      afMsgPayloads (processAFLine cid mid st raw).events = newA := by
  simp only [processAFLine]
  by_cases h1 : (pyStrip raw == "" || strStarts (pyStrip raw) ":") = true
  · rw [if_pos h1]
    exact ⟨hst, [], by simp, rfl⟩
  · rw [if_neg h1]
    by_cases h2 : strStarts (pyStrip raw) "event:" = true
    · rw [if_pos h2]
      refine ⟨?_, [], by simp, rfl⟩
      simp only [afIsDataEventLine, h2, Bool.true_and] at hraw
      rw [some_beq_some]
      exact hraw
    · rw [if_neg h2]
      by_cases h3 : strStarts (pyStrip raw) "data:" = true
      · rw [if_pos h3]
        by_cases h4 : (pyStrip (pyReplace (pyStrip raw) "data:" "") == "") = true
        · rw [if_pos h4]
          exact ⟨hst, [], by simp, rfl⟩
        · rw [if_neg h4]
          exact afDataStep_no_data cid mid st _ hst
      · rw [if_neg h3]
        exact ⟨hst, [], by simp, rfl⟩

theorem afLoop_msg_concat (cid mid : String) (lines : List String) (st : AFState)
    (hst : (st.cet == some "data") = false)
    (hl : (lines.all fun raw => !afIsDataEventLine raw) = true) :
    ∃ newA, (afLoop cid mid st lines).2.1.answers = st.answers ++ newA ∧
      afMsgPayloads (afLoop cid mid st lines).1 = newA := by
  induction lines generalizing st with
  | nil => exact ⟨[], by simp [afLoop], rfl⟩
  | cons l ls ih =>
    rw [List.all_cons, Bool.and_eq_true] at hl
    obtain ⟨hl1, hl2⟩ := hl
    have hl1x : afIsDataEventLine l = false := by simpa using hl1
    obtain ⟨hcet, newA, hA, hP⟩ := processAFLine_no_data cid mid st l hst hl1x
    cases hf : (processAFLine cid mid st l).flow with
    | cont =>
      obtain ⟨newB, hB, hQ⟩ := ih _ hcet hl2
      refine ⟨newA ++ newB, ?_, ?_⟩
      · simp only [afLoop, hf]
        rw [hB, hA, List.append_assoc]
      · simp only [afLoop, hf]
        rw [afMsgPayloads_append, hP, hQ]
    | halt =>
      exact ⟨newA, by simp only [afLoop, hf]; exact hA, by simp only [afLoop, hf]; exact hP⟩
    | exc =>
      exact ⟨newA, by simp only [afLoop, hf]; exact hA, by simp only [afLoop, hf]; exact hP⟩

/-- Claim C4, amended: the round-trip holds for the agentflow translator on
streams containing no `data` events: the sequence (hence concatenation) of
`message`-event payloads equals the answers buffer handed to the persistence
task.  (`data` events additionally append their serialized payload to the
buffer, as the C4 counterexample shows; the claim's other translators also
fail it.) -/
theorem spec_c4_amended (cid mid excStr : String) (lines : List String)
    (h : (lines.all fun raw => !afIsDataEventLine raw) = true) :
    afMsgPayloads (agentflowRun cid mid excStr lines).1
      = (agentflowRun cid mid excStr lines).2 := by
  obtain ⟨newA, hA, hP⟩ := afLoop_msg_concat cid mid lines ⟨none, []⟩ rfl h
  simp only [agentflowRun]
  cases hf : (afLoop cid mid ⟨none, []⟩ lines).2.2 with
  | cont =>
    simp only [hf]
    rw [hP, hA]
    simp
  | halt =>
    simp only [hf]
    rw [hP, hA]
    simp
  | exc =>
    simp only [hf]
    rw [afMsgPayloads_append, hP, afMsgPayloads_exc, hA]
    simp

/-- Witness for the amended C4: a message event followed by a `done` event
round-trips the buffered answer. -/
theorem spec_c4_witness :
    afMsgPayloads (agentflowRun "c" "m" "E"
      ["event: message", "data: \x7b\"text\":\"hi\"\x7d", "event: done", "data: \x7b\x7d"]).1
      = (agentflowRun "c" "m" "E"
      ["event: message", "data: \x7b\"text\":\"hi\"\x7d", "event: done", "data: \x7b\x7d"]).2 :=
  spec_c4_amended "c" "m" "E" _ rfl

theorem processDifyLine_malformed (cid mid : String) (st : DifyState) (raw : String)
    (h : difyIsMalformed raw = true) :
    processDifyLine cid mid st raw = ⟨[], st, none⟩ := by
  unfold difyIsMalformed at h
  unfold processDifyLine
  cases hc : difyClassify raw <;> simp_all

theorem difyBranch1_content (st : DifyState) (p : JObj) (evs anss : String)
    (he : jget p "event" = some (.jstr evs)) (ha : jget p "answer" = some (.jstr anss))
    (hev : evs = "message" ∨ evs = "message_end")
    (hans : strHasSub anss "loading..." = false) :
    difyBranch1 st p = ([], st, none) := by
  unfold difyBranch1
  rcases hev with rfl | rfl <;>
    simp [jgetIsStr, he, ha, hans]

theorem difyBranch2_content (cid mid : String) (cf : JObj) (a t : List JVal) (p : JObj)
    (evs anss : String)
    (he : jget p "event" = some (.jstr evs)) (ha : jget p "answer" = some (.jstr anss))
    (hev : evs = "message" ∨ evs = "message_end")
    (hans : strHasSub anss "loading..." = false) :
    ∃ a2, difyBranch2 cid mid ⟨cf, false, a, t⟩ p
      = ([difyContentEvent cid mid p], ⟨cf, false, a2, t⟩) := by
  unfold difyBranch2
  rcases hev with rfl | rfl <;>
    simp [jgetIsStr, he, ha, hans, difyContentEvent]

theorem difyPayloadStep_content (cid mid : String) (cf : JObj) (a t : List JVal) (p : JObj)
    (h : difyContentCheck p = true) :
    ∃ a2, difyPayloadStep cid mid ⟨cf, false, a, t⟩ p
      = ⟨[difyContentEvent cid mid p], ⟨cf, false, a2, t⟩, none⟩ := by
  unfold difyContentCheck at h
  cases he : jget p "event" <;> rw [he] at h
  · simp at h
  case some ev =>
    cases ha : jget p "answer" <;> rw [ha] at h
    · cases ev <;> simp at h
    case some ans =>
      cases ev <;> try simp at h
      case jstr evs =>
        cases ans <;> try simp at h
        case jstr anss =>
          obtain ⟨hevs, hans⟩ := h
          obtain ⟨a2, hb2⟩ := difyBranch2_content cid mid cf a t p evs anss he ha hevs hans
          refine ⟨a2, ?_⟩
          unfold difyPayloadStep
          rw [difyBranch1_content ⟨cf, false, a, t⟩ p evs anss he ha hevs hans]
          dsimp only
          rw [hb2]
          rfl

theorem difyContentPayload_elim (raw : String) (p : JObj)
    (hp : difyContentPayload raw = some p) :
    difyClassify raw = .payload p ∧ difyContentCheck p = true := by
  unfold difyContentPayload at hp
  cases hc : difyClassify raw
  case skipLine => rw [hc] at hp; simp at hp
  case malformed => rw [hc] at hp; simp at hp
  case nonObj v => rw [hc] at hp; simp at hp
  case payload q =>
    rw [hc] at hp
    dsimp only at hp
    by_cases hch : difyContentCheck q = true
    · rw [if_pos hch] at hp
      cases hp
      exact ⟨rfl, hch⟩
    · rw [if_neg hch] at hp
      simp at hp

theorem processDifyLine_content (cid mid : String) (cf : JObj) (a t : List JVal)
    (raw : String) (p : JObj) (hp : difyContentPayload raw = some p) :
    ∃ a2, processDifyLine cid mid ⟨cf, false, a, t⟩ raw
      = ⟨[difyContentEvent cid mid p], ⟨cf, false, a2, t⟩, none⟩ := by
  obtain ⟨hcl, hch⟩ := difyContentPayload_elim raw p hp
  obtain ⟨a2, hstep⟩ := difyPayloadStep_content cid mid cf a t p hch
  refine ⟨a2, ?_⟩
  unfold processDifyLine
  rw [hcl]
  exact hstep

theorem difyContentPayload_none_of_malformed (raw : String)
    (hmal : difyIsMalformed raw = true) : difyContentPayload raw = none := by
  unfold difyIsMalformed at hmal
  unfold difyContentPayload
  cases hc : difyClassify raw <;> simp_all

theorem difyLoop_content (cid mid : String) (lines : List String) (cf : JObj) (t : List JVal) :
    ∀ a, (lines.all difyLineOk) = true →
    ∃ a2, difyLoop cid mid ⟨cf, false, a, t⟩ lines
      = ⟨lines.filterMap (fun raw => (difyContentPayload raw).map (difyContentEvent cid mid)),
         ⟨cf, false, a2, t⟩, none⟩ := by
  induction lines with
  | nil =>
    intro a _
    exact ⟨a, by simp [difyLoop]⟩
  | cons l ls ih =>
    intro a h
    rw [List.all_cons, Bool.and_eq_true] at h
    obtain ⟨h1, h2⟩ := h
    unfold difyLineOk at h1
    rw [Bool.or_eq_true] at h1
    rcases h1 with hcp | hmal
    · rw [Option.isSome_iff_exists] at hcp
      obtain ⟨p, hp⟩ := hcp
      obtain ⟨a2, hstep⟩ := processDifyLine_content cid mid cf a t l p hp
      obtain ⟨a3, hrest⟩ := ih a2 h2
      refine ⟨a3, ?_⟩
      simp only [difyLoop]
      rw [hstep]
      dsimp only
      rw [hrest]
      simp [List.filterMap_cons, hp]
    · have hstep := processDifyLine_malformed cid mid ⟨cf, false, a, t⟩ l hmal
      obtain ⟨a3, hrest⟩ := ih a h2
      refine ⟨a3, ?_⟩
      simp only [difyLoop]
      rw [hstep]
      dsimp only
      rw [hrest]
      simp [List.filterMap_cons, difyContentPayload_none_of_malformed l hmal]

/-- Claim C2, amended: the interleaving property holds for the Dify
translator only.  For an upstream stream in which every line is either a
well-formed content line or malformed, the translator emits the initial
loading event followed by exactly the content lines' payloads (stamped with
the caller's ids) in the original relative order — N content-bearing events
for N content lines — and a malformed line never terminates the stream.
(The multi-agent translator instead aborts at the first malformed line, and
the agentflow translator forwards non-JSON data as wrapped text.) -/
theorem spec_c2_amended (cid mid : String) (lines : List String)
    (h : (lines.all difyLineOk) = true) :
    (difyRun cid mid false lines).events
      = difyInitEvent cid mid
        :: lines.filterMap (fun raw => (difyContentPayload raw).map (difyContentEvent cid mid)) ∧
    (difyRun cid mid false lines).aborted = none := by
  simp only [difyRun]
  obtain ⟨a2, hloop⟩ := difyLoop_content cid mid lines
    (handleMultiF [] [] cid mid (difyInitEvent cid mid)).2.2
    (handleMultiF [] [] cid mid (difyInitEvent cid mid)).2.1
    (handleMultiF [] [] cid mid (difyInitEvent cid mid)).1 h
  rw [hloop]
  exact ⟨rfl, rfl⟩

/-- Witness for the amended C2: two content lines with one malformed line
between them yield exactly the two content events after the initial loading
event, and no abort. -/
theorem spec_c2_witness :
    (difyRun "c" "m" false
        ["data: \x7b\"event\":\"message\",\"answer\":\"Hello\"\x7d",
         "data: \x7bbad",
         "data: \x7b\"event\":\"message\",\"answer\":\" world\"\x7d"]).events
      = difyInitEvent "c" "m"
        :: (["data: \x7b\"event\":\"message\",\"answer\":\"Hello\"\x7d",
             "data: \x7bbad",
             "data: \x7b\"event\":\"message\",\"answer\":\" world\"\x7d"].filterMap
              (fun raw => (difyContentPayload raw).map (difyContentEvent "c" "m"))) ∧
    (difyRun "c" "m" false
        ["data: \x7b\"event\":\"message\",\"answer\":\"Hello\"\x7d",
         "data: \x7bbad",
         "data: \x7b\"event\":\"message\",\"answer\":\" world\"\x7d"]).aborted = none :=
  spec_c2_amended "c" "m" _ rfl

theorem maPhase1_loading (cid mid : String) (stB : MAState) (lj : JObj) (content seg1 : String)
    (hagent : jgetIsStr lj "agent" "coordinator" = true)
    (hct : stB.isCoordThought = true)
    (hcontent : jget lj "content" = some (.jstr content))
    (hload : strHasSub content "loading..." = true)
    (hseg : (pySplit content "|")[1]? = some seg1) :
    ∃ stx ljx,
      maPhase1 cid mid stB lj
        = ((ljReveal "loadingText" maLoadingPre
              (jset (jset lj "content" (.jstr "")) "type" (.jstr "loading")) (reveal seg1)).1
            ++ [ljx], stx, ljx, none) ∧
      jget ljx "content" = some (.jstr "") ∧
      jget ljx "loadingText" = some (.jstr maPlanningText) := by
  unfold maPhase1
  have hcond : (jgetIsStr lj "agent" "coordinator" && stB.isCoordThought && jhas lj "content") = true := by
    simp [hagent, hct, jget_some_jhas lj "content" _ hcontent]
  rw [if_pos hcond, hcontent, Option.getD_some]
  dsimp only
  rw [if_pos hload, hseg]
  dsimp only
  refine ⟨_, _, rfl, ?_, ?_⟩
  · rw [jget_jset_ne _ _ _ _ (by rfl), jget_jset_self]
  · rw [jget_jset_self]

theorem maPhase2_skip (st : MAState) (lj : JObj) (h : jget lj "content" = some (.jstr "")) :
    maPhase2 st lj = ([], st, lj, none) := by
  unfold maPhase2
  rw [h]
  dsimp only
  rw [if_neg (by decide)]

theorem maPhase3_skip (cid mid : String) (st : MAState) (lj : JObj)
    (h : jget lj "content" = some (.jstr "")) :
    maPhase3 cid mid st lj = ([], st) := by
  unfold maPhase3
  rw [h]
  dsimp only
  rw [if_neg (by decide)]

/-- Claim C7, amended: for a coordinator chunk whose `finish_reason` is
`stop` or `tool_calls` and whose string content carries the `loading...`
sentinel with at least two pipe-separated segments, the multi-agent
translator emits one loading event per character of segment 1 (the status
label) — not segment 2 — with `loadingText` the prefix-reveal of segment 1,
followed by exactly one planning-task follow-up event, and does not abort. -/
theorem spec_c7_amended (cid mid : String) (st : MAState) (lj : JObj) (content seg1 : String)
    (hagent : jgetIsStr lj "agent" "coordinator" = true)
    (hfr : (jgetIsStr lj "finish_reason" "stop" || jgetIsStr lj "finish_reason" "tool_calls") = true)
    (hcontent : jget lj "content" = some (.jstr content))
    (hload : strHasSub content "loading..." = true)
    (hseg : (pySplit content "|")[1]? = some seg1) :
    (processParsedMA cid mid st lj).events.map (fun e => jget e "loadingText")
      = (reveal seg1).map (fun t => some (JVal.jstr (maLoadingPre ++ t)))
        ++ [some (JVal.jstr maPlanningText)] ∧
    (processParsedMA cid mid st lj).events.length = seg1.length + 1 ∧
    (processParsedMA cid mid st lj).aborted = none := by
  simp only [processParsedMA]
  obtain ⟨stx, ljx, hp1, hcx, hlx⟩ :=
    maPhase1_loading cid mid
      ⟨st.answers, st.thought,
        (st.isCoordThought || (jgetIsStr lj "agent" "coordinator" &&
          (jgetIsStr lj "finish_reason" "tool_calls" || jgetIsStr lj "finish_reason" "stop"))),
        (jget lj "thread_id").getD .jnull⟩
      lj content seg1 hagent
      (by
        have h2 := hfr
        rw [Bool.or_eq_true] at h2
        rcases h2 with h1 | h1 <;> simp [hagent, h1])
      hcontent hload hseg
  rw [hp1]
  dsimp only
  rw [maPhase2_skip _ _ hcx]
  dsimp only
  rw [maPhase3_skip _ _ _ _ hcx]
  refine ⟨?_, ?_, rfl⟩
  · simp [List.map_append, ljReveal_map_key, hlx]
  · simp [ljReveal_length, reveal_length]


/-- Witness for the amended C7: the chunk
`{"agent":"coordinator","finish_reason":"stop","content":"loading...|AB|XYZ"}`
yields the prefix-reveal of `AB` followed by the planning event. -/
theorem spec_c7_witness :
    (processParsedMA "c" "m" ⟨[], [], false, .jstr ""⟩
        [("agent", .jstr "coordinator"), ("finish_reason", .jstr "stop"),
         ("content", .jstr "loading...|AB|XYZ")]).events.map (fun e => jget e "loadingText")
      = (reveal "AB").map (fun t => some (JVal.jstr (maLoadingPre ++ t)))
        ++ [some (JVal.jstr maPlanningText)] ∧
    (processParsedMA "c" "m" ⟨[], [], false, .jstr ""⟩
        [("agent", .jstr "coordinator"), ("finish_reason", .jstr "stop"),
         ("content", .jstr "loading...|AB|XYZ")]).events.length = "AB".length + 1 ∧
    (processParsedMA "c" "m" ⟨[], [], false, .jstr ""⟩
        [("agent", .jstr "coordinator"), ("finish_reason", .jstr "stop"),
         ("content", .jstr "loading...|AB|XYZ")]).aborted = none :=
  spec_c7_amended "c" "m" ⟨[], [], false, .jstr ""⟩
    [("agent", .jstr "coordinator"), ("finish_reason", .jstr "stop"),
     ("content", .jstr "loading...|AB|XYZ")] "loading...|AB|XYZ" "AB" rfl rfl rfl rfl rfl

end IopsAgentflow
